import Mathlib

/-!
Verification of the interruption-toggling policy in `src/agent.py` (the
`entrypoint` coroutine of the voice-agent worker).

The session-scoped mutable state consists of the agent's
`allow_interruptions` flag (set to `False` at construction, line 52) and
the local variable `first_response_done` (line 41).  The fallible external
calls — `agent.respond`, `agent.say`, `agent.tts.stop`, and the greeting
`agent.say` — are modelled as `Except`-valued operations driven by a fault
oracle, and each observable call is recorded in an event trace so that
ordering properties can be stated.
-/

namespace VoiceAgent

/-- Observable events of one session, in program order: connecting to the
room (line 36), the participant arriving (line 38), an `agent.say` call
with its `allow_interruptions` argument (lines 68, 89, 126), an
`agent.respond` call (lines 85, 123), an assignment to
`agent.allow_interruptions` (lines 81, 96, 103, 111), the assignment
`first_response_done = True` (lines 93, 102), and an `agent.tts.stop`
call (line 116). -/
inductive Event where
  | connected : Event
  | participantJoined : Event
  | sayCall : String → Bool → Event
  | respondCall : String → Event
  | setAllowInterruptions : Bool → Event
  | markFirstResponseDone : Event
  | stopCall : Event
deriving DecidableEq, Repr

/-- The session-scoped mutable state: the agent's `allow_interruptions`
flag and the local `first_response_done` variable of `entrypoint`. -/
structure AgentState where
  allow_interruptions : Bool
  first_response_done : Bool
deriving DecidableEq, Repr

/-- Fault oracle for one loop iteration: whether `agent.respond`,
`agent.say`, or `agent.tts.stop` raises an exception on this turn. -/
structure Faults where
  respondFails : Bool
  sayFails : Bool
  stopFails : Bool
deriving DecidableEq, Repr

/-- `agent.respond(text)` (lines 85, 123): either raises or returns the
reply produced by the language model, abstracted as `respondFn`. -/
def respondOp (respondFn : String → String) (f : Faults) (text : String) :
    Except String String :=
  if f.respondFails then Except.error "respond raised" else Except.ok (respondFn text)

/-- `agent.say(response, ...)` (lines 89, 126): either raises or completes. -/
def sayOp (f : Faults) : Except String Unit :=
  if f.sayFails then Except.error "say raised" else Except.ok ()

/-- `agent.tts.stop()` (line 116): either raises or completes. -/
def stopOp (f : Faults) : Except String Unit :=
  if f.stopFails then Except.error "stop raised" else Except.ok ()

/-- The greeting text spoken at line 68. -/
def greetingText : String :=
  "Hey, how can I help you today? I am Sara, your AI helper."

/-- Agent state as constructed (line 52, `allow_interruptions=False`) and
after `first_response_done = False` (line 41). -/
def initState : AgentState :=
  { allow_interruptions := false, first_response_done := false }

/-- The body of the `async for text in agent.listen()` loop (lines 75-131)
for one utterance `text`, returning the new state and the events of the
iteration.

First branch (`not first_response_done`, lines 79-103): set
`allow_interruptions = False`; inside `try`, call `respond`, call `say`
with `allow_interruptions=False`, set `first_response_done = True`, set
`allow_interruptions = True`; the `except` handler (lines 100-103) also
sets `first_response_done = True` and `allow_interruptions = True`.

Second branch (lines 104-131): if `allow_interruptions` is false, set it
true (lines 109-111); `try` `agent.tts.stop()` with the exception only
logged (lines 114-119); then in a separate `try`, call `respond` and `say`
with `allow_interruptions=True`, exceptions only logged (lines 121-131). -/
def processUtterance (respondFn : String → String) (s : AgentState)
    (text : String) (f : Faults) : AgentState × List Event :=
  if s.first_response_done = false then
    let s1 : AgentState := { s with allow_interruptions := false }
    let evs : List Event := [Event.setAllowInterruptions false, Event.respondCall text]
    match respondOp respondFn f text with
    | Except.error _ =>
        ({ s1 with first_response_done := true, allow_interruptions := true },
         evs ++ [Event.markFirstResponseDone, Event.setAllowInterruptions true])
    | Except.ok response =>
        let evs2 := evs ++ [Event.sayCall response false]
        match sayOp f with
        | Except.error _ =>
            ({ s1 with first_response_done := true, allow_interruptions := true },
             evs2 ++ [Event.markFirstResponseDone, Event.setAllowInterruptions true])
        | Except.ok _ =>
            ({ s1 with first_response_done := true, allow_interruptions := true },
             evs2 ++ [Event.markFirstResponseDone, Event.setAllowInterruptions true])
  else
    let (s1, evs0) :=
      if s.allow_interruptions = false then
        ({ s with allow_interruptions := true },
         [Event.setAllowInterruptions true])
      else (s, ([] : List Event))
    let evs1 := evs0 ++ [Event.stopCall]
    let evs1b :=
      match stopOp f with
      | Except.error _ => evs1
      | Except.ok _ => evs1
    let evs2 := evs1b ++ [Event.respondCall text]
    match respondOp respondFn f text with
    | Except.error _ => (s1, evs2)
    | Except.ok response =>
        let evs3 := evs2 ++ [Event.sayCall response true]
        match sayOp f with
        | Except.error _ => (s1, evs3)
        | Except.ok _ => (s1, evs3)

/-- The utterance loop (lines 75-131): fold `processUtterance` over the
recognized utterances, collecting the per-turn event traces. -/
def runTurns (respondFn : String → String) (s : AgentState) :
    List (String × Faults) → AgentState × List (List Event)
  | [] => (s, [])
  | (text, f) :: rest =>
      let r1 := processUtterance respondFn s text f
      let r2 := runTurns respondFn r1.1 rest
      (r2.1, r1.2 :: r2.2)

/-- The `entrypoint` coroutine (lines 25-131): connect to the room, wait
for a participant, speak the greeting with `allow_interruptions=False`
(line 68, not guarded by any `try`), then run the utterance loop.  A
greeting failure propagates out of the coroutine. -/
def entrypointModel (respondFn : String → String) (greetFails : Bool)
    (turns : List (String × Faults)) : Except String (AgentState × List Event) :=
  if greetFails then Except.error "greeting raised"
  else
    let r := runTurns respondFn initState turns
    Except.ok (r.1,
      Event.connected :: Event.participantJoined ::
        Event.sayCall greetingText false :: r.2.flatten)

/-- After processing any utterance, from any state, the session state is
`allow_interruptions = true` and `first_response_done = true`: the first
branch sets both (lines 93-103), and the second branch keeps
`first_response_done` and ensures `allow_interruptions` (lines 109-111). -/
lemma processUtterance_state (respondFn : String → String) (s : AgentState)
    (text : String) (f : Faults) :
    (processUtterance respondFn s text f).1 = ⟨true, true⟩ := by
  obtain ⟨a, d⟩ := s
  obtain ⟨fr, fs, ft⟩ := f
  cases a <;> cases d <;> cases fr <;> cases fs <;> cases ft <;>
    simp [processUtterance, respondOp, sayOp, stopOp]

/-- The resulting `allow_interruptions` flag is always true after a turn. -/
lemma processUtterance_allow (respondFn : String → String) (s : AgentState)
    (text : String) (f : Faults) :
    (processUtterance respondFn s text f).1.allow_interruptions = true := by
  rw [processUtterance_state]

/-- The `first_response_done` variable is always true after a turn. -/
lemma processUtterance_done (respondFn : String → String) (s : AgentState)
    (text : String) (f : Faults) :
    (processUtterance respondFn s text f).1.first_response_done = true := by
  rw [processUtterance_state]

/-- On a turn taken with `first_response_done = true`, every `say` event
of the turn carries `allow_interruptions = true` (line 126). -/
lemma processUtterance_done_says_true (respondFn : String → String)
    (s : AgentState) (text : String) (f : Faults)
    (hs : s.first_response_done = true) :
    ∀ t b, Event.sayCall t b ∈ (processUtterance respondFn s text f).2 →
      b = true := by
  obtain ⟨a, d⟩ := s
  obtain ⟨fr, fs, ft⟩ := f
  cases d
  · exact absurd hs (by simp)
  · cases a <;> cases fr <;> cases fs <;> cases ft <;>
      simp [processUtterance, respondOp, sayOp, stopOp]

/-- Running the loop from a state with `first_response_done = true` keeps
the state at `allow_interruptions = true, first_response_done = true`. -/
lemma runTurns_state_done (respondFn : String → String)
    (rest : List (String × Faults)) :
    (runTurns respondFn ⟨true, true⟩ rest).1 = ⟨true, true⟩ := by
  induction rest with
  | nil => rfl
  | cons p rest ih =>
      obtain ⟨text, f⟩ := p
      simp only [runTurns]
      rw [processUtterance_state]
      exact ih

/-- All `say` events of a loop run started with `first_response_done =
true` carry `allow_interruptions = true`. -/
lemma runTurns_done_says_true (respondFn : String → String)
    (rest : List (String × Faults)) :
    ∀ trace ∈ (runTurns respondFn ⟨true, true⟩ rest).2,
      ∀ t b, Event.sayCall t b ∈ trace → b = true := by
  induction rest with
  | nil => simp [runTurns]
  | cons p rest ih =>
      obtain ⟨text, f⟩ := p
      simp only [runTurns, List.mem_cons]
      intro trace htrace
      rcases htrace with h | h
      · subst h
        exact processUtterance_done_says_true respondFn ⟨true, true⟩ text f rfl
      · rw [processUtterance_state] at h
        exact ih trace h

/-- The loop emits one trace per utterance. -/
lemma runTurns_length (respondFn : String → String) (s : AgentState)
    (turns : List (String × Faults)) :
    (runTurns respondFn s turns).2.length = turns.length := by
  induction turns generalizing s with
  | nil => rfl
  | cons p rest ih =>
      obtain ⟨text, f⟩ := p
      simp only [runTurns, List.length_cons]
      rw [ih]

/-- Claim C1: on the first user utterance of a session (a turn taken with
`first_response_done = false`), the very first action is setting the
agent's `allow_interruptions` flag to false (line 81), and every
`agent.say` call of that turn passes `allow_interruptions=False`
(line 89). -/
theorem first_turn_reply_spoken_uninterruptible (respondFn : String → String)
    (s : AgentState) (text : String) (f : Faults)
    (h : s.first_response_done = false) :
    (processUtterance respondFn s text f).2.head? =
      some (Event.setAllowInterruptions false) ∧
    ∀ t b, Event.sayCall t b ∈ (processUtterance respondFn s text f).2 →
      b = false := by
  obtain ⟨a, d⟩ := s
  obtain ⟨fr, fs, ft⟩ := f
  cases d
  · cases a <;> cases fr <;> cases fs <;> cases ft <;>
      simp [processUtterance, respondOp, sayOp, stopOp]
  · exact absurd h (by simp)

/-- Witness for C1 at a concrete session start. -/
theorem first_turn_reply_spoken_uninterruptible_witness :
    (processUtterance (fun t => t) initState "hello" ⟨false, false, false⟩).2.head? =
      some (Event.setAllowInterruptions false) ∧
    ∀ t b, Event.sayCall t b ∈
        (processUtterance (fun t => t) initState "hello" ⟨false, false, false⟩).2 →
      b = false :=
  first_turn_reply_spoken_uninterruptible (fun t => t) initState "hello"
    ⟨false, false, false⟩ rfl

/-- Claim C2: after the first turn of a session completes — by success or
by the caught exception — the agent's `allow_interruptions` flag is true,
it is still true after any later turns, and every `say` event of every
turn after the first carries `allow_interruptions = true`. -/
theorem interruptions_enabled_from_second_turn (respondFn : String → String)
    (text : String) (f : Faults) (rest : List (String × Faults)) :
    (processUtterance respondFn initState text f).1.allow_interruptions = true ∧
    (runTurns respondFn initState ((text, f) :: rest)).1.allow_interruptions = true ∧
    ∀ trace ∈ (runTurns respondFn initState ((text, f) :: rest)).2.tail,
      ∀ t b, Event.sayCall t b ∈ trace → b = true := by
  have hst : (processUtterance respondFn initState text f).1 = ⟨true, true⟩ :=
    processUtterance_state respondFn initState text f
  refine ⟨by simp [hst], ?_, ?_⟩
  · simp only [runTurns]
    rw [hst, runTurns_state_done]
  · simp only [runTurns, List.tail_cons]
    rw [hst]
    exact runTurns_done_says_true respondFn rest

/-- Claim C4: an exception during the first turn (raised by `respond` or
by `say`) is handled at lines 100-103, which still set
`first_response_done = True` and `allow_interruptions = True`, so a
first-turn failure cannot leave the session locked. -/
theorem first_turn_failure_unlocks_session (respondFn : String → String)
    (s : AgentState) (text : String) (f : Faults)
    (_hdone : s.first_response_done = false)
    (_hfail : f.respondFails = true ∨ f.sayFails = true) :
    (processUtterance respondFn s text f).1.first_response_done = true ∧
    (processUtterance respondFn s text f).1.allow_interruptions = true :=
  ⟨processUtterance_done respondFn s text f,
   processUtterance_allow respondFn s text f⟩

/-- Witness for C4: a first turn whose `respond` call raises. -/
theorem first_turn_failure_unlocks_session_witness :
    (processUtterance (fun t => t) initState "hi" ⟨true, false, false⟩).1.first_response_done = true ∧
    (processUtterance (fun t => t) initState "hi" ⟨true, false, false⟩).1.allow_interruptions = true :=
  first_turn_failure_unlocks_session (fun t => t) initState "hi"
    ⟨true, false, false⟩ rfl (Or.inl rfl)

/-- Claim C3: a subsequent turn (one taken with `first_response_done =
true`) that begins with `allow_interruptions = false` first sets the flag
to true (lines 109-111): the set is the turn's first event, before the
`respond` call (line 123) and hence before delivery. -/
theorem subsequent_turn_reenables_interruptions (respondFn : String → String)
    (s : AgentState) (text : String) (f : Faults)
    (hdone : s.first_response_done = true)
    (hallow : s.allow_interruptions = false) :
    (processUtterance respondFn s text f).2.head? =
      some (Event.setAllowInterruptions true) ∧
    Event.respondCall text ∈ (processUtterance respondFn s text f).2.drop 1 := by
  obtain ⟨a, d⟩ := s
  cases d
  · exact absurd hdone (by simp)
  · cases a
    · obtain ⟨fr, fs, ft⟩ := f
      cases fr <;> cases fs <;> cases ft <;>
        simp [processUtterance, respondOp, sayOp, stopOp]
    · exact absurd hallow (by simp)

/-- Witness for C3: a subsequent turn found with interruptions disabled. -/
theorem subsequent_turn_reenables_interruptions_witness :
    (processUtterance (fun t => t) ⟨false, true⟩ "again" ⟨false, false, false⟩).2.head? =
      some (Event.setAllowInterruptions true) ∧
    Event.respondCall "again" ∈
      (processUtterance (fun t => t) ⟨false, true⟩ "again" ⟨false, false, false⟩).2.drop 1 :=
  subsequent_turn_reenables_interruptions (fun t => t) ⟨false, true⟩ "again"
    ⟨false, false, false⟩ rfl rfl

/-- Claim C5: whatever faults the turns raise, the entrypoint (with the
greeting succeeding) completes normally — no per-turn exception escapes
its handler — and the loop produces one trace per recognized utterance,
i.e. after any caught exception it continues to the next utterance. -/
theorem turn_exceptions_do_not_escape_loop (respondFn : String → String)
    (turns : List (String × Faults)) :
    (∃ st evs, entrypointModel respondFn false turns = Except.ok (st, evs)) ∧
    (runTurns respondFn initState turns).2.length = turns.length :=
  ⟨⟨_, _, rfl⟩, runTurns_length respondFn initState turns⟩

/-- Claim C6: with the greeting succeeding, the session trace starts with
connecting to the room, the participant arriving, and the greeting spoken
with `allow_interruptions=False` — in that order — and everything else
(in particular every `respond` call) comes from the utterance loop, after
those three events. -/
theorem session_greeting_precedes_utterances (respondFn : String → String)
    (turns : List (String × Faults)) :
    ∃ st evs, entrypointModel respondFn false turns = Except.ok (st, evs) ∧
      evs.take 3 = [Event.connected, Event.participantJoined,
        Event.sayCall greetingText false] ∧
      (∀ t, Event.respondCall t ∉ evs.take 3) ∧
      evs.drop 3 = (runTurns respondFn initState turns).2.flatten := by
  refine ⟨(runTurns respondFn initState turns).1,
    Event.connected :: Event.participantJoined ::
      Event.sayCall greetingText false ::
      (runTurns respondFn initState turns).2.flatten, rfl, rfl, ?_, rfl⟩
  intro t
  simp

/-- Claim C7: on a subsequent turn the `agent.tts.stop()` attempt
(line 116) happens exactly once, strictly before the `respond` call
(line 123) and never after it, and every reply on such a turn is spoken
with `allow_interruptions=True` (line 126). -/
theorem subsequent_turn_stop_before_respond (respondFn : String → String)
    (s : AgentState) (text : String) (f : Faults)
    (hdone : s.first_response_done = true) :
    ∃ pre post,
      (processUtterance respondFn s text f).2 = pre ++ Event.stopCall :: post ∧
      Event.stopCall ∉ pre ∧ Event.stopCall ∉ post ∧
      (∀ t, Event.respondCall t ∉ pre) ∧
      Event.respondCall text ∈ post ∧
      ∀ t b, Event.sayCall t b ∈ (processUtterance respondFn s text f).2 →
        b = true := by
  obtain ⟨a, d⟩ := s
  cases d
  · exact absurd hdone (by simp)
  · obtain ⟨fr, fs, ft⟩ := f
    cases a
    · cases fr
      · refine ⟨[Event.setAllowInterruptions true],
          [Event.respondCall text, Event.sayCall (respondFn text) true],
          ?_, ?_, ?_, ?_, ?_, ?_⟩ <;> cases fs <;> cases ft <;>
          simp [processUtterance, respondOp, sayOp, stopOp]
      · refine ⟨[Event.setAllowInterruptions true], [Event.respondCall text],
          ?_, ?_, ?_, ?_, ?_, ?_⟩ <;> cases fs <;> cases ft <;>
          simp [processUtterance, respondOp, sayOp, stopOp]
    · cases fr
      · refine ⟨[], [Event.respondCall text, Event.sayCall (respondFn text) true],
          ?_, ?_, ?_, ?_, ?_, ?_⟩ <;> cases fs <;> cases ft <;>
          simp [processUtterance, respondOp, sayOp, stopOp]
      · refine ⟨[], [Event.respondCall text],
          ?_, ?_, ?_, ?_, ?_, ?_⟩ <;> cases fs <;> cases ft <;>
          simp [processUtterance, respondOp, sayOp, stopOp]

/-- Witness for C7: a fault-free subsequent turn. -/
theorem subsequent_turn_stop_before_respond_witness :
    ∃ pre post,
      (processUtterance (fun t => t) ⟨true, true⟩ "weather" ⟨false, false, false⟩).2 =
        pre ++ Event.stopCall :: post ∧
      Event.stopCall ∉ pre ∧ Event.stopCall ∉ post ∧
      (∀ t, Event.respondCall t ∉ pre) ∧
      Event.respondCall "weather" ∈ post ∧
      ∀ t b, Event.sayCall t b ∈
          (processUtterance (fun t => t) ⟨true, true⟩ "weather" ⟨false, false, false⟩).2 →
        b = true :=
  subsequent_turn_stop_before_respond (fun t => t) ⟨true, true⟩ "weather"
    ⟨false, false, false⟩ rfl

/-- Claim C8: `first_response_done` is false at session start (line 41)
and monotone: after processing any utterance from any state it is true
(lines 93 and 102), and no step of the loop ever resets it to false. -/
theorem first_response_done_initially_false_then_monotone
    (respondFn : String → String) (s : AgentState) (text : String) (f : Faults) :
    initState.first_response_done = false ∧
    (processUtterance respondFn s text f).1.first_response_done = true :=
  ⟨rfl, processUtterance_done respondFn s text f⟩

/-- Claim C9: the greeting `agent.say` (line 68) is outside every `try`
of the entrypoint, so an exception raised there propagates: the model
returns the error and never the normal result, and no utterance is
processed. -/
theorem greeting_exception_propagates (respondFn : String → String)
    (turns : List (String × Faults)) :
    entrypointModel respondFn true turns = Except.error "greeting raised" ∧
    ∀ st evs, entrypointModel respondFn true turns ≠ Except.ok (st, evs) := by
  refine ⟨rfl, ?_⟩
  intro st evs h
  simp [entrypointModel] at h

/-- Claim C10: on a subsequent turn whose `agent.tts.stop()` call raises
(caught at lines 118-119), the turn still attempts `respond` (line 123),
and when `respond` succeeds the reply is still delivered via `say` with
`allow_interruptions=True` (line 126). -/
theorem stop_failure_does_not_skip_reply (respondFn : String → String)
    (s : AgentState) (text : String) (f : Faults)
    (hdone : s.first_response_done = true)
    (_hstop : f.stopFails = true) :
    Event.respondCall text ∈ (processUtterance respondFn s text f).2 ∧
    (f.respondFails = false →
      Event.sayCall (respondFn text) true ∈
        (processUtterance respondFn s text f).2) := by
  obtain ⟨a, d⟩ := s
  cases d
  · exact absurd hdone (by simp)
  · obtain ⟨fr, fs, ft⟩ := f
    cases a <;> cases fr <;> cases fs <;> cases ft <;>
      simp [processUtterance, respondOp, sayOp, stopOp]

/-- Witness for C10: a subsequent turn with a failing stop call. -/
theorem stop_failure_does_not_skip_reply_witness :
    Event.respondCall "next" ∈
      (processUtterance (fun t => t) ⟨true, true⟩ "next" ⟨false, false, true⟩).2 ∧
    ((⟨false, false, true⟩ : Faults).respondFails = false →
      Event.sayCall "next" true ∈
        (processUtterance (fun t => t) ⟨true, true⟩ "next" ⟨false, false, true⟩).2) :=
  stop_failure_does_not_skip_reply (fun t => t) ⟨true, true⟩ "next"
    ⟨false, false, true⟩ rfl rfl

end VoiceAgent
